import Mathlib

/-!
Verification of the spectral color pipeline of the atodium_optics renderer.

The definitions below are a shallow embedding, over the real numbers, of the
Rust sources of the repository: the spectral table generator
(spectrum_table/src/lib.rs), the runtime sigmoid-polynomial evaluation and
table lookup (src/spectrum/color.rs), and the binary-search helper
(src/util/mod.rs).  Floating-point arithmetic (f32 / f64) is modelled by
exact real arithmetic; where the code deliberately manipulates IEEE
infinities (the f32 sigmoid and the achromatic division by zero), values
are modelled in the extended reals EReal with IEEE sign conventions.
-/

noncomputable section

namespace Optics

/-- Lower wavelength bound of the CIE tables (source constant CIE_LAMBDA_MIN). -/
def CIE_LAMBDA_MIN : ℝ := 360

/-- Upper wavelength bound of the CIE tables (source constant CIE_LAMBDA_MAX). -/
def CIE_LAMBDA_MAX : ℝ := 830

/-- Number of coarse CIE samples (source constant CIE_SAMPLES). -/
def CIE_SAMPLES : ℕ := 95

/-- Piecewise-linear interpolation of a 95-sample CIE curve at wavelength x0,
translated from cie_interp in spectrum_table/src/lib.rs.  A sampled curve is
modelled as a total function on sample indices.  The Rust cast x as usize is
Nat.floor: for x that is negative (only reachable in the first branch) it
saturates to 0 exactly as Nat.floor does. -/
def cie_interp (data : ℕ → ℝ) (x0 : ℝ) : ℝ :=
  let x := (x0 - CIE_LAMBDA_MIN) * (((CIE_SAMPLES : ℝ) - 1) / (CIE_LAMBDA_MAX - CIE_LAMBDA_MIN))
  let offset : ℕ := if x < 0 then 0 else if CIE_SAMPLES - 2 < ⌊x⌋₊ then CIE_SAMPLES - 2 else ⌊x⌋₊
  let weight := x - (offset : ℝ)
  (1 - weight) * data offset + weight * data (offset + 1)

/-- Sigmoid used by the fitter (source fn sigmoid in spectrum_table/src/lib.rs). -/
def sigmoid (x : ℝ) : ℝ := 0.5 * x / Real.sqrt (1 + x * x) + 0.5

/-- Cubic smoothstep x f x f (3 - 2 x) (source fn smooth_step). -/
def smooth_step (x : ℝ) : ℝ := x * x * (3 - 2 * x)

/-- Squaring helper (source fn sqr). -/
def sqr (x : ℝ) : ℝ := x * x

/-- Entry k of the scale axis built by generate_spectrum_tables:
smooth_step (smooth_step (k / (res - 1))); the f32 cast is dropped in the
real-number model. -/
def scaleAxis (res k : ℕ) : ℝ := smooth_step (smooth_step ((k : ℝ) / ((res - 1 : ℕ) : ℝ)))

/-- Reparametrization applied by generate_spectrum_tables to a raw fitted
coefficient triple (a, b, c) before storing it in the output table
(f32 rounding dropped): with c0 = 360 and c1 = 1/(830-360) the stored triple
is (a sqr c1, b c1 - 2 a c0 sqr c1, c - b c0 c1 + a sqr c0 sqr c1). -/
def storedCoefficients (a b c : ℝ) : ℝ × ℝ × ℝ :=
  let c0 : ℝ := 360
  let c1 : ℝ := 1 / (830 - 360)
  (a * sqr c1, b * c1 - 2 * a * c0 * sqr c1, c - b * c0 * c1 + a * sqr c0 * sqr c1)

/-- Finite branch of RgbSigmoidPolynomial::sigmoid in src/spectrum/color.rs. -/
def sigmoid32 (x : ℝ) : ℝ := 0.5 * (1 + x / Real.sqrt (1 + x * x))

/-- RgbSigmoidPolynomial::sigmoid in src/spectrum/color.rs including its
special case: the f32 source first maps an infinite argument to 1 when
positive and to 0 when negative; finite arguments go through sigmoid32. -/
def sigmoidE (x : EReal) : ℝ :=
  if x = ⊤ then 1 else if x = ⊥ then 0 else sigmoid32 x.toReal

/-- Coefficient record of src/spectrum/color.rs RgbSigmoidPolynomial; the
spectrum value at wavelength lambda is the sigmoid of c2 lambda^2 + c1 lambda + c0. -/
structure RgbSigmoidPolynomial where
  c2 : ℝ
  c1 : ℝ
  c0 : ℝ

/-- RgbSigmoidPolynomial::get_value: the sigmoid of the Horner evaluation
calc_polynomial(lambda, c0, c1, c2) = lambda * (lambda * c2 + c1) + c0. -/
def RgbSigmoidPolynomial.get_value (p : RgbSigmoidPolynomial) (lam : ℝ) : ℝ :=
  sigmoid32 (lam * (lam * p.c2 + p.c1) + p.c0)

/-- Modelled from the spec: the constants crate::spectrum::LAMBDA_MIN and
crate::spectrum::LAMBDA_MAX referenced by max_value are declared in a module
that is not part of the provided sources; the spec fixes the spectral domain
at [360 nm, 830 nm]. -/
def LAMBDA_MIN : ℝ := 360

/-- Modelled from the spec: upper end of the spectral domain, 830 nm. -/
def LAMBDA_MAX : ℝ := 830

/-- Translation of util::math::clamp from src/util/math.rs. -/
def clamp (value lo hi : ℝ) : ℝ := if value < lo then lo else if hi < value then hi else value

/-- RgbSigmoidPolynomial::max_value from src/spectrum/color.rs. -/
def RgbSigmoidPolynomial.max_value (p : RgbSigmoidPolynomial) : ℝ :=
  clamp (-0.5 * p.c1 / p.c2) LAMBDA_MIN LAMBDA_MAX

theorem smooth_step_zero : smooth_step 0 = 0 := by
  simp [smooth_step]

theorem smooth_step_one : smooth_step 1 = 1 := by
  norm_num [smooth_step]

theorem smooth_step_nonneg {x : ℝ} (h0 : 0 ≤ x) (h1 : x ≤ 1) : 0 ≤ smooth_step x := by
  unfold smooth_step
  nlinarith

theorem smooth_step_le_one {x : ℝ} (h0 : 0 ≤ x) (h1 : x ≤ 1) : smooth_step x ≤ 1 := by
  unfold smooth_step
  nlinarith [sq_nonneg (1 - x)]

theorem smooth_step_strictMonoOn {a b : ℝ} (h0 : 0 ≤ a) (hab : a < b) (hb : b ≤ 1) :
    smooth_step a < smooth_step b := by
  unfold smooth_step
  have ha1 : a ≤ 1 := le_trans (le_of_lt hab) hb
  have hb0 : 0 < b := lt_of_le_of_lt h0 hab
  have t1 : 0 ≤ a * (1 - a) := mul_nonneg h0 (by linarith)
  have t2 : 0 ≤ b * (1 - b) := mul_nonneg (le_of_lt hb0) (by linarith)
  have t3 : 0 < (a + b) * (2 - a - b) := mul_pos (by linarith) (by linarith)
  nlinarith [mul_pos (sub_pos.mpr hab) t3,
    mul_nonneg (le_of_lt (sub_pos.mpr hab)) t1,
    mul_nonneg (le_of_lt (sub_pos.mpr hab)) t2]

/-- C7: for every resolution res at least 2, the scale axis
scale[k] = smooth_step (smooth_step (k / (res - 1))) built by
generate_spectrum_tables satisfies scale[0] = 0 and scale[res-1] = 1 and is
strictly increasing in k. -/
theorem scale_axis_monotone (res : ℕ) (hres : 2 ≤ res) :
    scaleAxis res 0 = 0 ∧ scaleAxis res (res - 1) = 1 ∧
      ∀ k : ℕ, k < res - 1 → scaleAxis res k < scaleAxis res (k + 1) := by
  have hn : 0 < ((res - 1 : ℕ) : ℝ) := by
    have : 1 ≤ res - 1 := by omega
    exact_mod_cast Nat.lt_of_lt_of_le Nat.zero_lt_one this
  refine ⟨?_, ?_, ?_⟩
  · simp [scaleAxis, smooth_step_zero]
  · rw [scaleAxis, div_self (ne_of_gt hn), smooth_step_one, smooth_step_one]
  · intro k hk
    have hka : (0 : ℝ) ≤ (k : ℝ) / ((res - 1 : ℕ) : ℝ) :=
      div_nonneg (Nat.cast_nonneg k) (le_of_lt hn)
    have hab : (k : ℝ) / ((res - 1 : ℕ) : ℝ) < ((k + 1 : ℕ) : ℝ) / ((res - 1 : ℕ) : ℝ) := by
      have hk1 : (k : ℝ) < ((k + 1 : ℕ) : ℝ) := by exact_mod_cast Nat.lt_succ_self k
      rw [div_lt_div_iff hn hn]
      nlinarith
    have hb1 : ((k + 1 : ℕ) : ℝ) / ((res - 1 : ℕ) : ℝ) ≤ 1 := by
      rw [div_le_one hn]
      exact_mod_cast Nat.succ_le_of_lt hk
    have ha1 : (k : ℝ) / ((res - 1 : ℕ) : ℝ) ≤ 1 := le_of_lt (lt_of_lt_of_le hab hb1)
    have hinner := smooth_step_strictMonoOn hka hab hb1
    exact smooth_step_strictMonoOn (smooth_step_nonneg hka ha1) hinner
      (smooth_step_le_one (le_trans hka (le_of_lt hab)) hb1)

/-- Witness for scale_axis_monotone at the concrete resolution 3. -/
theorem scale_axis_monotone_witness :
    (2 ≤ 3) ∧ (scaleAxis 3 0 = 0 ∧ scaleAxis 3 2 = 1 ∧
      ∀ k : ℕ, k < 2 → scaleAxis 3 k < scaleAxis 3 (k + 1)) :=
  ⟨by norm_num, scale_axis_monotone 3 (by norm_num)⟩

/-- C1: the stored coefficient triple (a', b', c') = storedCoefficients a b c
satisfies the polynomial identity a' λ^2 + b' λ + c' = a t^2 + b t + c with
t = (λ - 360) / (830 - 360) for every wavelength λ, and consequently the
runtime evaluator get_value on the stored triple at raw λ in nanometres
equals the sigmoid of the fitter's normalized-domain polynomial value. -/
theorem stored_coefficients_reparametrize (a b c lam : ℝ) :
    ((storedCoefficients a b c).1 * lam ^ 2 + (storedCoefficients a b c).2.1 * lam +
        (storedCoefficients a b c).2.2 =
      a * ((lam - 360) / (830 - 360)) ^ 2 + b * ((lam - 360) / (830 - 360)) + c) ∧
    RgbSigmoidPolynomial.get_value
        ⟨(storedCoefficients a b c).1, (storedCoefficients a b c).2.1,
          (storedCoefficients a b c).2.2⟩ lam =
      sigmoid32 ((a * ((lam - 360) / (830 - 360)) + b) * ((lam - 360) / (830 - 360)) + c) := by
  constructor
  · unfold storedCoefficients sqr
    field_simp
    ring
  · unfold RgbSigmoidPolynomial.get_value storedCoefficients sqr
    congr 1
    field_simp
    ring

theorem sqrt_one_add_sq_pos (x : ℝ) : 0 < Real.sqrt (1 + x * x) := by
  apply Real.sqrt_pos.mpr
  nlinarith [sq_nonneg x]

theorem abs_le_sqrt_one_add_sq (x : ℝ) : |x| ≤ Real.sqrt (1 + x * x) := by
  have h : |x| = Real.sqrt (x * x) := (Real.sqrt_mul_self_eq_abs x).symm
  rw [h]
  exact Real.sqrt_le_sqrt (by nlinarith)

theorem sigmoid32_mem_Icc (x : ℝ) : sigmoid32 x ∈ Set.Icc (0 : ℝ) 1 := by
  have hs := sqrt_one_add_sq_pos x
  have habs := abs_le_sqrt_one_add_sq x
  have h1 : x / Real.sqrt (1 + x * x) ≤ 1 := by
    rw [div_le_one hs]
    exact le_trans (le_abs_self x) habs
  have h2 : -1 ≤ x / Real.sqrt (1 + x * x) := by
    rw [neg_le, ← neg_div, div_le_one hs]
    calc -x ≤ |x| := neg_le_abs x
    _ ≤ Real.sqrt (1 + x * x) := habs
  constructor
  · unfold sigmoid32
    nlinarith
  · unfold sigmoid32
    nlinarith

theorem sigmoid32_strictMono {a b : ℝ} (hab : a < b) : sigmoid32 a < sigmoid32 b := by
  have hsa := sqrt_one_add_sq_pos a
  have hsb := sqrt_one_add_sq_pos b
  have key : a * Real.sqrt (1 + b * b) < b * Real.sqrt (1 + a * a) := by
    have hsqa : Real.sqrt (1 + a * a) * Real.sqrt (1 + a * a) = 1 + a * a :=
      Real.mul_self_sqrt (by nlinarith [sq_nonneg a])
    have hsqb : Real.sqrt (1 + b * b) * Real.sqrt (1 + b * b) = 1 + b * b :=
      Real.mul_self_sqrt (by nlinarith [sq_nonneg b])
    rcases le_or_lt 0 a with ha | ha
    · have hb : 0 < b := lt_of_le_of_lt ha hab
      nlinarith [mul_pos hb hsa, mul_nonneg ha (le_of_lt hsb),
        mul_pos (mul_pos hb hsa) (mul_pos hb hsa)]
    · rcases le_or_lt 0 b with hb | hb
      · have hneg : a * Real.sqrt (1 + b * b) < 0 := mul_neg_of_neg_of_pos ha hsb
        exact lt_of_lt_of_le hneg (mul_nonneg hb (le_of_lt hsa))
      · nlinarith [mul_pos (neg_pos.mpr ha) hsb, mul_pos (neg_pos.mpr hb) hsa]
  unfold sigmoid32
  have hdiv : a / Real.sqrt (1 + a * a) < b / Real.sqrt (1 + b * b) := by
    rw [div_lt_div_iff hsa hsb]
    exact key
  linarith

theorem sigmoid32_mono {a b : ℝ} (hab : a ≤ b) : sigmoid32 a ≤ sigmoid32 b := by
  rcases eq_or_lt_of_le hab with h | h
  · rw [h]
  · exact le_of_lt (sigmoid32_strictMono h)

/-- C3: for every coefficient triple and every wavelength in [360, 830] the
evaluated spectrum get_value lambda lies in [0, 1]; moreover the source
sigmoid maps every finite argument into [0, 1], maps a positive infinite
argument to 1 and a negative infinite argument to 0. -/
theorem get_value_mem_Icc :
    (∀ (p : RgbSigmoidPolynomial) (lam : ℝ), 360 ≤ lam → lam ≤ 830 →
        p.get_value lam ∈ Set.Icc (0 : ℝ) 1) ∧
      (∀ x : EReal, sigmoidE x ∈ Set.Icc (0 : ℝ) 1) ∧ sigmoidE ⊤ = 1 ∧ sigmoidE ⊥ = 0 := by
  refine ⟨fun p lam _ _ => sigmoid32_mem_Icc _, fun x => ?_, by simp [sigmoidE], ?_⟩
  · unfold sigmoidE
    split
    · exact ⟨zero_le_one, le_refl 1⟩
    · split
      · exact ⟨le_refl 0, zero_le_one⟩
      · exact sigmoid32_mem_Icc _
  · unfold sigmoidE
    simp

/-- Witness for get_value_mem_Icc at the zero polynomial and 400 nm. -/
theorem get_value_mem_Icc_witness :
    (360 : ℝ) ≤ 400 ∧ (400 : ℝ) ≤ 830 ∧
      RgbSigmoidPolynomial.get_value ⟨0, 0, 0⟩ 400 ∈ Set.Icc (0 : ℝ) 1 :=
  ⟨by norm_num, by norm_num, get_value_mem_Icc.1 ⟨0, 0, 0⟩ 400 (by norm_num) (by norm_num)⟩

/-- C9 (amended): max_value returns the parabola vertex -0.5 c1 / c2 clamped
to [LAMBDA_MIN, LAMBDA_MAX]; when c2 < 0, so that the quadratic opens
downward, this wavelength maximizes get_value over [360, 830]. -/
theorem max_value_is_argmax (p : RgbSigmoidPolynomial) (hc2 : p.c2 < 0) :
    p.max_value = clamp (-0.5 * p.c1 / p.c2) LAMBDA_MIN LAMBDA_MAX ∧
      ∀ lam : ℝ, 360 ≤ lam → lam ≤ 830 → p.get_value lam ≤ p.get_value p.max_value := by
  refine ⟨rfl, fun lam hlo hhi => ?_⟩
  have hc2ne : p.c2 ≠ 0 := ne_of_lt hc2
  set v : ℝ := -0.5 * p.c1 / p.c2 with hv
  have hc1 : p.c1 = -2 * p.c2 * v := by
    rw [hv]
    field_simp
    ring
  have hm : p.max_value = if v < 360 then (360 : ℝ) else if 830 < v then 830 else v := rfl
  apply sigmoid32_mono
  rw [hm, hc1]
  split_ifs with h1 h2
  · nlinarith [mul_nonneg (mul_nonneg (sub_nonneg.mpr hlo)
      (by linarith : (0 : ℝ) ≤ 360 + lam - 2 * v)) (le_of_lt (neg_pos.mpr hc2))]
  · nlinarith [mul_nonneg (mul_nonneg (sub_nonneg.mpr hhi)
      (by linarith : (0 : ℝ) ≤ 2 * v - 830 - lam)) (le_of_lt (neg_pos.mpr hc2))]
  · nlinarith [mul_nonneg (le_of_lt (neg_pos.mpr hc2)) (sq_nonneg (lam - v))]

/-- Witness for max_value_is_argmax at the concrete polynomial (-1, 0, 0). -/
theorem max_value_is_argmax_witness :
    ((⟨-1, 0, 0⟩ : RgbSigmoidPolynomial).c2 < 0) ∧
      (RgbSigmoidPolynomial.max_value ⟨-1, 0, 0⟩ =
          clamp (-0.5 * (⟨-1, 0, 0⟩ : RgbSigmoidPolynomial).c1 /
            (⟨-1, 0, 0⟩ : RgbSigmoidPolynomial).c2) LAMBDA_MIN LAMBDA_MAX ∧
        ∀ lam : ℝ, 360 ≤ lam → lam ≤ 830 →
          RgbSigmoidPolynomial.get_value ⟨-1, 0, 0⟩ lam ≤
            RgbSigmoidPolynomial.get_value ⟨-1, 0, 0⟩
              (RgbSigmoidPolynomial.max_value ⟨-1, 0, 0⟩)) :=
  ⟨by norm_num, max_value_is_argmax ⟨-1, 0, 0⟩ (by norm_num)⟩

/-- Counterexample to C9 as stated: for the coefficient triple
c2 = 1, c1 = 0, c0 = 0 (an upward parabola) max_value returns the clamped
vertex 360 nm, but the spectrum value at 830 nm is strictly larger, so the
returned wavelength is not the wavelength of peak value. -/
theorem max_value_not_argmax :
    RgbSigmoidPolynomial.get_value ⟨1, 0, 0⟩
        (RgbSigmoidPolynomial.max_value ⟨1, 0, 0⟩) <
      RgbSigmoidPolynomial.get_value ⟨1, 0, 0⟩ 830 := by
  have hmv : RgbSigmoidPolynomial.max_value ⟨1, 0, 0⟩ = 360 := by
    unfold RgbSigmoidPolynomial.max_value clamp LAMBDA_MIN LAMBDA_MAX
    norm_num
  rw [hmv]
  unfold RgbSigmoidPolynomial.get_value
  apply sigmoid32_strictMono
  norm_num

/-- While loop of util::find_interval from src/util/mod.rs: first is the
current window start, size the window width; Rust size >> 1 is size / 2. -/
def findIntervalLoop (pred : ℕ → Bool) (first size : ℕ) : ℕ :=
  if h : size = 0 then first
  else if pred (first + size / 2) then
    findIntervalLoop pred (first + size / 2 + 1) (size - (size / 2 + 1))
  else
    findIntervalLoop pred first (size / 2)
termination_by size
decreasing_by all_goals omega

/-- Translation of util::find_interval from src/util/mod.rs. -/
def find_interval (sz : ℕ) (pred : ℕ → Bool) : ℕ :=
  if sz ≤ 1 then 0
  else if sz ≤ findIntervalLoop pred 1 (sz - 2) - 1 then sz - 2
  else if findIntervalLoop pred 1 (sz - 2) - 1 = 0 then 0
  else findIntervalLoop pred 1 (sz - 2) - 1

theorem findIntervalLoop_bounds (pred : ℕ → Bool) (size : ℕ) :
    ∀ first, 1 ≤ first → 1 ≤ findIntervalLoop pred first size ∧
      findIntervalLoop pred first size ≤ first + size := by
  induction size using Nat.strong_induction_on with
  | _ size ih =>
    intro first hfirst
    rw [findIntervalLoop]
    split_ifs with h0 hp
    · omega
    · have hrec := ih (size - (size / 2 + 1)) (by omega) (first + size / 2 + 1) (by omega)
      exact ⟨hrec.1, by omega⟩
    · have hrec := ih (size / 2) (by omega) first hfirst
      exact ⟨hrec.1, by omega⟩

theorem find_interval_le (sz : ℕ) (pred : ℕ → Bool) (hsz : 2 ≤ sz) :
    find_interval sz pred ≤ sz - 2 := by
  unfold find_interval
  have hb := findIntervalLoop_bounds pred (sz - 2) 1 (le_refl 1)
  split_ifs <;> omega

/-- RGB triple of src/spectrum/color.rs (component clamping of the
constructors is not modelled; the claims hypothesize components in [0,1]). -/
structure RgbColor where
  r : ℝ
  g : ℝ
  b : ℝ

/-- Channel access rgb[i] following the Index impl of RgbColor; indices
other than 0, 1, 2 panic in the source and are never produced by the code
modelled here (all call sites reduce the index mod 3). -/
def RgbColor.comp (c : RgbColor) : ℕ → ℝ
  | 0 => c.r
  | 1 => c.g
  | _ => c.b

/-- Table resolution (source constant RBG_TO_SPECTRUM_TABLE_RES). -/
def RBG_TO_SPECTRUM_TABLE_RES : ℕ := 64

/-- Index of the largest channel, with ties resolved exactly as the nested
comparisons in color_to_polynomial resolve them. -/
def RgbColor.maxIdx (c : RgbColor) : ℕ :=
  if c.comp 0 > c.comp 1 then (if c.comp 0 > c.comp 2 then 0 else 2)
  else (if c.comp 1 > c.comp 2 then 1 else 2)

/-- Value z = rgb[max_idx] in color_to_polynomial. -/
def RgbColor.coordZ (c : RgbColor) : ℝ := c.comp c.maxIdx

/-- Grid coordinate x = rgb[(max_idx+1)%3] * (RES - 1) / z. -/
def RgbColor.coordX (c : RgbColor) : ℝ :=
  c.comp ((c.maxIdx + 1) % 3) * ((RBG_TO_SPECTRUM_TABLE_RES : ℝ) - 1) / c.coordZ

/-- Grid coordinate y = rgb[(max_idx+2)%3] * (RES - 1) / z. -/
def RgbColor.coordY (c : RgbColor) : ℝ :=
  c.comp ((c.maxIdx + 2) % 3) * ((RBG_TO_SPECTRUM_TABLE_RES : ℝ) - 1) / c.coordZ

/-- Grid index xi = (x as usize).min(RES - 2); the f32 to usize cast is
Nat.floor (it saturates negative values to 0, as Nat.floor does). -/
def RgbColor.xi (c : RgbColor) : ℕ := min ⌊c.coordX⌋₊ (RBG_TO_SPECTRUM_TABLE_RES - 2)

/-- Grid index yi = (y as usize).min(RES - 2). -/
def RgbColor.yi (c : RgbColor) : ℕ := min ⌊c.coordY⌋₊ (RBG_TO_SPECTRUM_TABLE_RES - 2)

/-- Scale axis interval index zi = find_interval(RES, |i| z_node[i] < z). -/
def ziIndex (znode : ℕ → ℝ) (c : RgbColor) : ℕ :=
  find_interval RBG_TO_SPECTRUM_TABLE_RES (fun i => decide (znode i < c.coordZ))

/-- C4: for an RgbColor with components in [0,1] that are not all equal, all
grid indices used by color_to_polynomial are in bounds: xi and yi are at most
RES - 2 = 62, the z interval index is at most 62 for every scale axis, hence
every corner read uses indices at most 63 on each axis of the 64-entry
table; and find_interval with sz ≥ 2 returns at most sz - 2 for an
arbitrary predicate. -/
theorem color_to_polynomial_indices_in_bounds (c : RgbColor)
    (hr0 : 0 ≤ c.r) (hr1 : c.r ≤ 1) (hg0 : 0 ≤ c.g) (hg1 : c.g ≤ 1)
    (hb0 : 0 ≤ c.b) (hb1 : c.b ≤ 1) (hne : ¬(c.r = c.g ∧ c.g = c.b)) :
    c.xi ≤ 62 ∧ c.yi ≤ 62 ∧ (∀ znode : ℕ → ℝ, ziIndex znode c ≤ 62) ∧
      c.xi + 1 ≤ 63 ∧ c.yi + 1 ≤ 63 ∧ (∀ znode : ℕ → ℝ, ziIndex znode c + 1 ≤ 63) ∧
      ∀ (sz : ℕ) (pred : ℕ → Bool), 2 ≤ sz → find_interval sz pred ≤ sz - 2 := by
  have hxi : c.xi ≤ 62 := min_le_right _ _
  have hyi : c.yi ≤ 62 := min_le_right _ _
  have hzi : ∀ znode : ℕ → ℝ, ziIndex znode c ≤ 62 := fun znode =>
    find_interval_le RBG_TO_SPECTRUM_TABLE_RES _ (by norm_num [RBG_TO_SPECTRUM_TABLE_RES])
  exact ⟨hxi, hyi, hzi, by omega, by omega, fun znode => by have := hzi znode; omega,
    find_interval_le⟩

/-- Witness for color_to_polynomial_indices_in_bounds at rgb = (1/2, 1/4, 0). -/
theorem color_to_polynomial_indices_in_bounds_witness :
    (0 ≤ (1 : ℝ) / 2 ∧ (1 : ℝ) / 2 ≤ 1 ∧ 0 ≤ (1 : ℝ) / 4 ∧ (1 : ℝ) / 4 ≤ 1 ∧
        0 ≤ (0 : ℝ) ∧ (0 : ℝ) ≤ 1 ∧
        ¬((1 : ℝ) / 2 = 1 / 4 ∧ (1 : ℝ) / 4 = 0)) ∧
      (RgbColor.xi ⟨1 / 2, 1 / 4, 0⟩ ≤ 62 ∧ RgbColor.yi ⟨1 / 2, 1 / 4, 0⟩ ≤ 62 ∧
        (∀ znode : ℕ → ℝ, ziIndex znode ⟨1 / 2, 1 / 4, 0⟩ ≤ 62) ∧
        RgbColor.xi ⟨1 / 2, 1 / 4, 0⟩ + 1 ≤ 63 ∧ RgbColor.yi ⟨1 / 2, 1 / 4, 0⟩ + 1 ≤ 63 ∧
        (∀ znode : ℕ → ℝ, ziIndex znode ⟨1 / 2, 1 / 4, 0⟩ + 1 ≤ 63) ∧
        ∀ (sz : ℕ) (pred : ℕ → Bool), 2 ≤ sz → find_interval sz pred ≤ sz - 2) :=
  ⟨⟨by norm_num, by norm_num, by norm_num, by norm_num, by norm_num, by norm_num, by norm_num⟩,
    color_to_polynomial_indices_in_bounds ⟨1 / 2, 1 / 4, 0⟩ (by norm_num) (by norm_num)
      (by norm_num) (by norm_num) (by norm_num) (by norm_num) (by norm_num)⟩

theorem cie_interp_offset_eq (x : ℝ) :
    (if x < 0 then (0 : ℕ) else if 93 < ⌊x⌋₊ then 93 else ⌊x⌋₊) =
      (min 93 (max 0 ⌊x⌋)).toNat := by
  split_ifs with h1 h2
  · have hfl : ⌊x⌋ < 0 := Int.floor_lt.mpr (by simpa using h1)
    omega
  · have hx : 0 ≤ x := not_lt.mp h1
    have hfl : ⌊x⌋.toNat = ⌊x⌋₊ := Int.floor_toNat x
    have hnn : 0 ≤ ⌊x⌋ := Int.floor_nonneg.mpr hx
    omega
  · have hx : 0 ≤ x := not_lt.mp h1
    have hfl : ⌊x⌋.toNat = ⌊x⌋₊ := Int.floor_toNat x
    have hnn : 0 ≤ ⌊x⌋ := Int.floor_nonneg.mpr hx
    omega

/-- C5 (amended): cie_interp returns (1-w) data[i] + w data[i+1] with
i = clamp(floor((λ-360)·94/470), 0, 93) and w = (λ-360)·94/470 - i; the
interval index clamps for out-of-range wavelengths but the weight does not,
so out-of-range values are linearly extrapolated along the outermost
segment; exactly at the endpoints 360 nm and 830 nm the result is data 0
and data 94. -/
theorem cie_interp_formula (data : ℕ → ℝ) (lam : ℝ) :
    cie_interp data lam =
      (1 - ((lam - 360) * (94 / 470) -
          (((min 93 (max 0 ⌊(lam - 360) * (94 / 470)⌋)).toNat : ℕ) : ℝ))) *
        data (min 93 (max 0 ⌊(lam - 360) * (94 / 470)⌋)).toNat +
      ((lam - 360) * (94 / 470) -
          (((min 93 (max 0 ⌊(lam - 360) * (94 / 470)⌋)).toNat : ℕ) : ℝ)) *
        data ((min 93 (max 0 ⌊(lam - 360) * (94 / 470)⌋)).toNat + 1) ∧
    cie_interp data 360 = data 0 ∧ cie_interp data 830 = data 94 := by
  refine ⟨?_, ?_, ?_⟩
  · simp only [cie_interp, CIE_LAMBDA_MIN, CIE_LAMBDA_MAX, CIE_SAMPLES]
    norm_num [cie_interp_offset_eq]
  · simp only [cie_interp, CIE_LAMBDA_MIN, CIE_LAMBDA_MAX, CIE_SAMPLES]
    norm_num
  · simp only [cie_interp, CIE_LAMBDA_MIN, CIE_LAMBDA_MAX, CIE_SAMPLES]
    norm_num

/-- Counterexample to C5 as stated: for the sampled curve data i = i and the
out-of-range wavelength 350 nm (below 360 nm) cie_interp returns -2 and not
data 0 = 0: the code clamps the interval index but not the interpolation
weight, so wavelengths below 360 nm are linearly extrapolated. -/
theorem cie_interp_not_clamped_low :
    cie_interp (fun i => (i : ℝ)) 350 = -2 ∧ (350 : ℝ) ≤ 360 ∧ ((0 : ℕ) : ℝ) = 0 := by
  refine ⟨?_, by norm_num, by norm_num⟩
  unfold cie_interp
  norm_num [CIE_LAMBDA_MIN, CIE_LAMBDA_MAX, CIE_SAMPLES]

/-- Tables record produced by init_tables (source struct RgbToSpecTables);
arrays are modelled as total functions on indices. -/
structure RgbToSpecTables where
  lambda_tbl : ℕ → ℝ
  rgb_tbl : ℕ → ℕ → ℝ
  rgb_to_xyz : ℕ → ℕ → ℝ
  xyz_to_rgb : ℕ → ℕ → ℝ
  xyz_whitepoint : ℕ → ℝ

/-- Number of fine samples (CIE_SAMPLES - 1) * 3 + 1 = 283 (source constant
CIE_FINE_SAMPLES). -/
def CIE_FINE_SAMPLES : ℕ := (CIE_SAMPLES - 1) * 3 + 1

/-- Finite-difference step of the Jacobian (source RGB_TO_SPEC_EPSILON). -/
def RGB_TO_SPEC_EPSILON : ℝ := 1e-4

/-- Real model of f64::cbrt, the odd cube root. -/
def cbrt (t : ℝ) : ℝ := if 0 ≤ t then t ^ ((1 : ℝ) / 3) else -((-t) ^ ((1 : ℝ) / 3))

/-- Piecewise Lab nonlinearity f of cie_lab with threshold (6/29)^3. -/
def cieLabF (t : ℝ) : ℝ :=
  if t > (6 / 29) * (6 / 29) * (6 / 29) then cbrt t
  else t / ((6 / 29) * (6 / 29) * 3) + 4 / 29

/-- Translation of cie_lab from spectrum_table/src/lib.rs: maps an RGB
triple (a function on indices 0, 1, 2) to its CIE Lab coordinates using the
tables' matrices and whitepoint; entries beyond index 2 are untouched, as
in the in-place source update of p[0..3]. -/
def cie_lab (T : RgbToSpecTables) (p : ℕ → ℝ) : ℕ → ℝ :=
  let x := ∑ i ∈ Finset.range 3, p i * T.rgb_to_xyz 0 i
  let y := ∑ i ∈ Finset.range 3, p i * T.rgb_to_xyz 1 i
  let z := ∑ i ∈ Finset.range 3, p i * T.rgb_to_xyz 2 i
  fun j =>
    if j = 0 then 116 * cieLabF (y / T.xyz_whitepoint 1) - 16
    else if j = 1 then
      500 * (cieLabF (x / T.xyz_whitepoint 0) - cieLabF (y / T.xyz_whitepoint 1))
    else if j = 2 then
      200 * (cieLabF (y / T.xyz_whitepoint 1) - cieLabF (z / T.xyz_whitepoint 2))
    else p j

/-- Horner argument of eval_residual: the inner loop x = x * lambda + coefficients[j]
over j = 0, 1, 2 starting from 0, so the result is c0 t^2 + c1 t + c2. -/
def residualPoly (coes : ℕ → ℝ) (lam : ℝ) : ℝ :=
  (List.range 3).foldl (fun x j => x * lam + coes j) 0

/-- Translation of eval_residual: integrate the sigmoid spectrum against
rgb_tbl over the 283 fine samples (the accumulation loop is a sum in exact
arithmetic) and return target Lab minus fitted Lab. -/
def eval_residual (T : RgbToSpecTables) (coes rgb : ℕ → ℝ) : ℕ → ℝ :=
  let out := fun j => ∑ i ∈ Finset.range CIE_FINE_SAMPLES,
    T.rgb_tbl j i *
      sigmoid (residualPoly coes
        ((T.lambda_tbl i - CIE_LAMBDA_MIN) / (CIE_LAMBDA_MAX - CIE_LAMBDA_MIN)))
  fun j => cie_lab T rgb j - cie_lab T out j

/-- Coefficient perturbation used by eval_jacobian (tmp_coe[i] += d). -/
def perturb (coes : ℕ → ℝ) (i : ℕ) (d : ℝ) : ℕ → ℝ :=
  fun k => if k = i then coes k + d else coes k

/-- Translation of eval_jacobian: central finite differences of the residual
with step RGB_TO_SPEC_EPSILON in each coefficient. -/
def eval_jacobian (T : RgbToSpecTables) (coes rgb : ℕ → ℝ) : ℕ → ℕ → ℝ :=
  fun j i =>
    (eval_residual T (perturb coes i RGB_TO_SPEC_EPSILON) rgb j -
        eval_residual T (perturb coes i (-RGB_TO_SPEC_EPSILON)) rgb j) /
      (2 * RGB_TO_SPEC_EPSILON)

/-- Pivot search of lup_decompose for column i: the fold mirrors the source
loop with max_a = 0 and max_i = i, updated when |a[k][i]| > max_a
for k in i..n; the result is (max_i, max_a). -/
def lupPivot (n : ℕ) (a : ℕ → ℕ → ℝ) (i : ℕ) : ℕ × ℝ :=
  (List.range' i (n - i)).foldl
    (fun best k => if |a k i| > best.2 then (k, |a k i|) else best) (i, 0)

/-- Row exchange of the matrix (a.swap(i, j) on rows). -/
def rowSwap (a : ℕ → ℕ → ℝ) (i j : ℕ) : ℕ → ℕ → ℝ :=
  fun k => if k = i then a j else if k = j then a i else a k

/-- Entry exchange of the permutation vector (p.swap(i, j)). -/
def entrySwap (p : ℕ → ℕ) (i j : ℕ) : ℕ → ℕ :=
  fun k => if k = i then p j else if k = j then p i else p k

/-- Elimination step of lup_decompose on column i: for j in i+1..n the
multiplier a[j][i] / a[i][i] is stored in place and subtracted from the
trailing entries of row j. -/
def lupEliminate (n : ℕ) (a : ℕ → ℕ → ℝ) (i : ℕ) : ℕ → ℕ → ℝ :=
  fun j k =>
    if i < j ∧ j < n then
      (if k = i then a j i / a i i
       else if i < k ∧ k < n then a j k - a j i / a i i * a i k
       else a j k)
    else a j k

/-- One column step of lup_decompose: fails when the largest remaining pivot
magnitude in the column is below the tolerance; otherwise swaps rows when
needed (incrementing the exchange counter p[n]) and eliminates. -/
def lupStep (n : ℕ) (tol : ℝ) (st : (ℕ → ℕ → ℝ) × (ℕ → ℕ)) (i : ℕ) :
    Option ((ℕ → ℕ → ℝ) × (ℕ → ℕ)) :=
  let m := lupPivot n st.1 i
  if m.2 < tol then none
  else
    let a1 := if m.1 ≠ i then rowSwap st.1 i m.1 else st.1
    let p1 := if m.1 ≠ i then
        (fun k => if k = n then entrySwap st.2 i m.1 k + 1 else entrySwap st.2 i m.1 k)
      else st.2
    some (lupEliminate n a1 i, p1)

/-- Translation of lup_decompose (the source is generic in N and used at
N = 3): columns are processed in order, the permutation starts as the
identity (p[i] = i, including the exchange counter p[n] = n). -/
def lup_decompose (n : ℕ) (a : ℕ → ℕ → ℝ) (tol : ℝ) :
    Option ((ℕ → ℕ → ℝ) × (ℕ → ℕ)) :=
  (List.range n).foldlM (lupStep n tol) (a, fun k => k)

/-- Translation of lup_solve specialized to N = 3, the only instantiation
used: forward substitution against the permuted right-hand side, then back
substitution dividing by the diagonal. -/
def lup_solve (a : ℕ → ℕ → ℝ) (p : ℕ → ℕ) (b : ℕ → ℝ) : ℕ → ℝ :=
  let x0 := b (p 0)
  let x1 := b (p 1) - a 1 0 * x0
  let x2 := b (p 2) - a 2 0 * x0 - a 2 1 * x1
  let y2 := x2 / a 2 2
  let y1 := (x1 - a 1 2 * y2) / a 1 1
  let y0 := (x0 - a 0 1 * y1 - a 0 2 * y2) / a 0 0
  fun j => if j = 0 then y0 else if j = 1 then y1 else if j = 2 then y2 else 0

/-- One iteration body of gauss_newton: evaluate the residual and the
Jacobian, LUP-decompose the Jacobian with tolerance 1e-15 (failure
propagates), solve, subtract the solution from the coefficients, rescale
uniformly by 200/max when the maximum coefficient exceeds 200, and report
whether the pre-update squared residual was below 1e-6 (the loop breaks). -/
def gnStep (T : RgbToSpecTables) (rgb coes : ℕ → ℝ) : Option ((ℕ → ℝ) × Bool) :=
  let residual := eval_residual T coes rgb
  match lup_decompose 3 (eval_jacobian T coes rgb) 1e-15 with
  | none => none
  | some (lu, p) =>
    let x := lup_solve lu p residual
    let coes1 := fun j => coes j - x j
    let r := ∑ j ∈ Finset.range 3, sqr (residual j)
    let m := max (max (coes1 0) (coes1 1)) (coes1 2)
    let coes2 := if m > 200 then (fun j => coes1 j * (200 / m)) else coes1
    some (coes2, decide (r < 1e-6))

/-- Translation of gauss_newton: iterate up to max_iter steps, breaking
early after an iteration whose entry residual was converged; the final
coefficients are returned, or none when an iteration's LUP decomposition
fails. -/
def gauss_newton (T : RgbToSpecTables) (rgb coes : ℕ → ℝ) : ℕ → Option (ℕ → ℝ)
  | 0 => some coes
  | n + 1 =>
    match gnStep T rgb coes with
    | none => none
    | some (c, conv) => if conv then some c else gauss_newton T rgb c n

/-- State of the gauss_newton loop just before iteration k, or none when
the loop has already stopped (by LUP failure or by the convergence break). -/
def gnReach (T : RgbToSpecTables) (rgb coes : ℕ → ℝ) : ℕ → Option (ℕ → ℝ)
  | 0 => some coes
  | k + 1 =>
    match gnReach T rgb coes k with
    | none => none
    | some c =>
      match gnStep T rgb c with
      | none => none
      | some (c1, conv) => if conv then none else some c1


theorem gauss_newton_succ_step_none {T : RgbToSpecTables} {rgb coes : ℕ → ℝ} (n : ℕ)
    (h : gnStep T rgb coes = none) : gauss_newton T rgb coes (n + 1) = none := by
  rw [gauss_newton, h]

theorem gauss_newton_succ_step_true {T : RgbToSpecTables} {rgb coes c1 : ℕ → ℝ} (n : ℕ)
    (h : gnStep T rgb coes = some (c1, true)) : gauss_newton T rgb coes (n + 1) = some c1 := by
  rw [gauss_newton, h]
  simp

theorem gauss_newton_succ_step_false {T : RgbToSpecTables} {rgb coes c1 : ℕ → ℝ} (n : ℕ)
    (h : gnStep T rgb coes = some (c1, false)) :
    gauss_newton T rgb coes (n + 1) = gauss_newton T rgb c1 n := by
  rw [gauss_newton, h]
  simp

theorem gnReach_zero (T : RgbToSpecTables) (rgb coes : ℕ → ℝ) :
    gnReach T rgb coes 0 = some coes := by
  rw [gnReach]

theorem gnReach_succ_step_none {T : RgbToSpecTables} {rgb coes : ℕ → ℝ} (k : ℕ)
    (h : gnStep T rgb coes = none) : gnReach T rgb coes (k + 1) = none := by
  induction k with
  | zero => simp only [gnReach, h]
  | succ k ih => rw [gnReach, ih]

theorem gnReach_succ_step_true {T : RgbToSpecTables} {rgb coes c1 : ℕ → ℝ} (k : ℕ)
    (h : gnStep T rgb coes = some (c1, true)) : gnReach T rgb coes (k + 1) = none := by
  induction k with
  | zero => simp only [gnReach, h, if_true]
  | succ k ih => rw [gnReach, ih]

theorem gnReach_succ_step_false {T : RgbToSpecTables} {rgb coes c1 : ℕ → ℝ} (k : ℕ)
    (h : gnStep T rgb coes = some (c1, false)) :
    gnReach T rgb coes (k + 1) = gnReach T rgb c1 k := by
  induction k with
  | zero => simp only [gnReach, h, Bool.false_eq_true, if_false]
  | succ k ih =>
    rw [gnReach, ih, gnReach]

/-- C2: gauss_newton returns failure (none) exactly when some iteration
reachable within the budget hits a failing LUP decomposition of the
finite-difference Jacobian; in particular exhausting max_iter without the
convergence break is success, not failure. -/
theorem gauss_newton_fails_iff (T : RgbToSpecTables) (rgb coes : ℕ → ℝ) (maxIter : ℕ) :
    gauss_newton T rgb coes maxIter = none ↔
      ∃ k < maxIter, ∃ c, gnReach T rgb coes k = some c ∧ gnStep T rgb c = none := by
  induction maxIter generalizing coes with
  | zero => simp [gauss_newton]
  | succ n ih =>
    cases hstep : gnStep T rgb coes with
    | none =>
      rw [gauss_newton_succ_step_none n hstep]
      simp only [true_iff]
      exact ⟨0, Nat.succ_pos n, coes, gnReach_zero T rgb coes, hstep⟩
    | some pr =>
      obtain ⟨c1, conv⟩ := pr
      cases conv
      · rw [gauss_newton_succ_step_false n hstep, ih c1]
        constructor
        · rintro ⟨k, hk, c, hre, hf⟩
          exact ⟨k + 1, by omega, c, by rw [gnReach_succ_step_false k hstep]; exact hre, hf⟩
        · rintro ⟨k, hk, c, hre, hf⟩
          cases k with
          | zero =>
            rw [gnReach_zero] at hre
            obtain rfl : coes = c := Option.some.inj hre
            rw [hstep] at hf
            cases hf
          | succ k =>
            rw [gnReach_succ_step_false k hstep] at hre
            exact ⟨k, by omega, c, hre, hf⟩
      · rw [gauss_newton_succ_step_true n hstep]
        simp only [reduceCtorEq, false_iff, not_exists, not_and]
        intro k hk c hre
        cases k with
        | zero =>
          rw [gnReach_zero] at hre
          obtain rfl : coes = c := Option.some.inj hre
          rw [hstep]
          exact fun h => by cases h
        | succ k =>
          rw [gnReach_succ_step_true k hstep] at hre
          cases hre

theorem gnStep_bound (T : RgbToSpecTables) (rgb cs : ℕ → ℝ) :
    (gnStep T rgb cs).elim True
      (fun pr => max (max (pr.1 0) (pr.1 1)) (pr.1 2) ≤ 200) := by
  rw [gnStep]
  cases lup_decompose 3 (eval_jacobian T cs rgb) 1e-15 with
  | none => trivial
  | some lup =>
    obtain ⟨lu, p⟩ := lup
    simp only [Option.elim_some]
    set x := lup_solve lu p (eval_residual T cs rgb) with hx
    set c1 : ℕ → ℝ := fun j => cs j - x j with hc1
    set m := max (max (c1 0) (c1 1)) (c1 2) with hm
    by_cases hgt : m > 200
    · simp only [hgt, if_true]
      have hmpos : 0 < m := lt_trans (by norm_num) hgt
      have hm0 : m ≠ 0 := ne_of_gt hmpos
      have hs : (0 : ℝ) ≤ 200 / m := le_of_lt (div_pos (by norm_num) hmpos)
      have hmax : max (max (c1 0 * (200 / m)) (c1 1 * (200 / m))) (c1 2 * (200 / m)) =
          m * (200 / m) := by
        rw [hm, max_mul_of_nonneg _ _ hs, max_mul_of_nonneg _ _ hs]
      have hfin : m * (200 / m) = 200 := by
        field_simp
      exact le_of_eq (hmax.trans hfin)
    · simp only [hgt, if_false]
      exact le_of_not_lt hgt

theorem gauss_newton_bound_aux (T : RgbToSpecTables) (rgb : ℕ → ℝ) (n : ℕ) :
    ∀ cs, (gauss_newton T rgb cs (n + 1)).elim True
      (fun c => max (max (c 0) (c 1)) (c 2) ≤ 200) := by
  induction n with
  | zero =>
    intro cs
    have hb := gnStep_bound T rgb cs
    cases hstep : gnStep T rgb cs with
    | none => rw [gauss_newton_succ_step_none 0 hstep]; trivial
    | some pr =>
      obtain ⟨c1, conv⟩ := pr
      rw [hstep] at hb
      cases conv
      · rw [gauss_newton_succ_step_false 0 hstep, gauss_newton]
        simpa using hb
      · rw [gauss_newton_succ_step_true 0 hstep]
        simpa using hb
  | succ n ih =>
    intro cs
    have hb := gnStep_bound T rgb cs
    cases hstep : gnStep T rgb cs with
    | none => rw [gauss_newton_succ_step_none (n + 1) hstep]; trivial
    | some pr =>
      obtain ⟨c1, conv⟩ := pr
      rw [hstep] at hb
      cases conv
      · rw [gauss_newton_succ_step_false (n + 1) hstep]
        exact ih c1
      · rw [gauss_newton_succ_step_true (n + 1) hstep]
        simpa using hb

/-- C8: every completed gauss_newton iteration ends with
max(c0, c1, c2) ≤ 200 (after the update a larger maximum is rescaled by
200/max to exactly 200), and consequently every successful call with
max_iter ≥ 1 returns coefficients whose maximum is at most 200. -/
theorem gauss_newton_coefficients_bounded (T : RgbToSpecTables) (rgb coes : ℕ → ℝ)
    (n : ℕ) (hn : 1 ≤ n) :
    (∀ cs : ℕ → ℝ, (gnStep T rgb cs).elim True
        (fun pr => max (max (pr.1 0) (pr.1 1)) (pr.1 2) ≤ 200)) ∧
      (gauss_newton T rgb coes n).elim True
        (fun c => max (max (c 0) (c 1)) (c 2) ≤ 200) := by
  refine ⟨fun cs => gnStep_bound T rgb cs, ?_⟩
  obtain ⟨m, rfl⟩ : ∃ m, n = m + 1 := ⟨n - 1, by omega⟩
  exact gauss_newton_bound_aux T rgb m coes

/-- Witness for gauss_newton_coefficients_bounded with all-zero tables and
inputs at max_iter = 1. -/
theorem gauss_newton_coefficients_bounded_witness :
    (1 ≤ 1) ∧
      ((∀ cs : ℕ → ℝ,
          (gnStep ⟨fun _ => 0, fun _ _ => 0, fun _ _ => 0, fun _ _ => 0, fun _ => 0⟩
              (fun _ => 0) cs).elim True
            (fun pr => max (max (pr.1 0) (pr.1 1)) (pr.1 2) ≤ 200)) ∧
        (gauss_newton ⟨fun _ => 0, fun _ _ => 0, fun _ _ => 0, fun _ _ => 0, fun _ => 0⟩
            (fun _ => 0) (fun _ => 0) 1).elim True
          (fun c => max (max (c 0) (c 1)) (c 2) ≤ 200)) :=
  ⟨le_refl 1,
    gauss_newton_coefficients_bounded
      ⟨fun _ => 0, fun _ _ => 0, fun _ _ => 0, fun _ _ => 0, fun _ => 0⟩
      (fun _ => 0) (fun _ => 0) 1 (le_refl 1)⟩
/-- CIE X color-matching curve, 95 samples over [360, 830] nm (source CIE_X). -/
def CIE_X_RAW : List ℝ := [
  0.000129900000, 0.000232100000, 0.000414900000, 0.000741600000, 0.001368000000,
  0.002236000000, 0.004243000000, 0.007650000000, 0.014310000000, 0.023190000000,
  0.043510000000, 0.077630000000, 0.134380000000, 0.214770000000, 0.283900000000,
  0.328500000000, 0.348280000000, 0.348060000000, 0.336200000000, 0.318700000000,
  0.290800000000, 0.251100000000, 0.195360000000, 0.142100000000, 0.095640000000,
  0.057950010000, 0.032010000000, 0.014700000000, 0.004900000000, 0.002400000000,
  0.009300000000, 0.029100000000, 0.063270000000, 0.109600000000, 0.165500000000,
  0.225749900000, 0.290400000000, 0.359700000000, 0.433449900000, 0.512050100000,
  0.594500000000, 0.678400000000, 0.762100000000, 0.842500000000, 0.916300000000,
  0.978600000000, 1.026300000000, 1.056700000000, 1.062200000000, 1.045600000000,
  1.002600000000, 0.938400000000, 0.854449900000, 0.751400000000, 0.642400000000,
  0.541900000000, 0.447900000000, 0.360800000000, 0.283500000000, 0.218700000000,
  0.164900000000, 0.121200000000, 0.087400000000, 0.063600000000, 0.046770000000,
  0.032900000000, 0.022700000000, 0.015840000000, 0.011359160000, 0.008110916000,
  0.005790346000, 0.004109457000, 0.002899327000, 0.002049190000, 0.001439971000,
  0.000999949300, 0.000690078600, 0.000476021300, 0.000332301100, 0.000234826100,
  0.000166150500, 0.000117413000, 0.000083075270, 0.000058706520, 0.000041509940,
  0.000029353260, 0.000020673830, 0.000014559770, 0.000010253980, 0.000007221456,
  0.000005085868, 0.000003581652, 0.000002522525, 0.000001776509, 0.000001251141
]

/-- CIE Y color-matching curve (source CIE_Y). -/
def CIE_Y_RAW : List ℝ := [
  0.000003917000, 0.000006965000, 0.000012390000, 0.000022020000, 0.000039000000,
  0.000064000000, 0.000120000000, 0.000217000000, 0.000396000000, 0.000640000000,
  0.001210000000, 0.002180000000, 0.004000000000, 0.007300000000, 0.011600000000,
  0.016840000000, 0.023000000000, 0.029800000000, 0.038000000000, 0.048000000000,
  0.060000000000, 0.073900000000, 0.090980000000, 0.112600000000, 0.139020000000,
  0.169300000000, 0.208020000000, 0.258600000000, 0.323000000000, 0.407300000000,
  0.503000000000, 0.608200000000, 0.710000000000, 0.793200000000, 0.862000000000,
  0.914850100000, 0.954000000000, 0.980300000000, 0.994950100000, 1.000000000000,
  0.995000000000, 0.978600000000, 0.952000000000, 0.915400000000, 0.870000000000,
  0.816300000000, 0.757000000000, 0.694900000000, 0.631000000000, 0.566800000000,
  0.503000000000, 0.441200000000, 0.381000000000, 0.321000000000, 0.265000000000,
  0.217000000000, 0.175000000000, 0.138200000000, 0.107000000000, 0.081600000000,
  0.061000000000, 0.044580000000, 0.032000000000, 0.023200000000, 0.017000000000,
  0.011920000000, 0.008210000000, 0.005723000000, 0.004102000000, 0.002929000000,
  0.002091000000, 0.001484000000, 0.001047000000, 0.000740000000, 0.000520000000,
  0.000361100000, 0.000249200000, 0.000171900000, 0.000120000000, 0.000084800000,
  0.000060000000, 0.000042400000, 0.000030000000, 0.000021200000, 0.000014990000,
  0.000010600000, 0.000007465700, 0.000005257800, 0.000003702900, 0.000002607800,
  0.000001836600, 0.000001293400, 0.000000910930, 0.000000641530, 0.000000451810
]

/-- CIE Z color-matching curve (source CIE_Z). -/
def CIE_Z_RAW : List ℝ := [
  0.000606100000, 0.001086000000, 0.001946000000, 0.003486000000, 0.006450001000,
  0.010549990000, 0.020050010000, 0.036210000000, 0.067850010000, 0.110200000000,
  0.207400000000, 0.371300000000, 0.645600000000, 1.039050100000, 1.385600000000,
  1.622960000000, 1.747060000000, 1.782600000000, 1.772110000000, 1.744100000000,
  1.669200000000, 1.528100000000, 1.287640000000, 1.041900000000, 0.812950100000,
  0.616200000000, 0.465180000000, 0.353300000000, 0.272000000000, 0.212300000000,
  0.158200000000, 0.111700000000, 0.078249990000, 0.057250010000, 0.042160000000,
  0.029840000000, 0.020300000000, 0.013400000000, 0.008749999000, 0.005749999000,
  0.003900000000, 0.002749999000, 0.002100000000, 0.001800000000, 0.001650001000,
  0.001400000000, 0.001100000000, 0.001000000000, 0.000800000000, 0.000600000000,
  0.000340000000, 0.000240000000, 0.000190000000, 0.000100000000, 0.000049999990,
  0.000030000000, 0.000020000000, 0.000010000000, 0.000000000000, 0.000000000000,
  0.000000000000, 0.000000000000, 0.000000000000, 0.000000000000, 0.000000000000,
  0.000000000000, 0.000000000000, 0.000000000000, 0.000000000000, 0.000000000000,
  0.000000000000, 0.000000000000, 0.000000000000, 0.000000000000, 0.000000000000,
  0.000000000000, 0.000000000000, 0.000000000000, 0.000000000000, 0.000000000000,
  0.000000000000, 0.000000000000, 0.000000000000, 0.000000000000, 0.000000000000,
  0.000000000000, 0.000000000000, 0.000000000000, 0.000000000000, 0.000000000000,
  0.000000000000, 0.000000000000, 0.000000000000, 0.000000000000, 0.000000000000
]

/-- Raw (unnormalized) D65 illuminant samples; the source stores each entry divided by 10566.864005283874576 via cie_d65_n. -/
def CIE_D65_RAW : List ℝ := [
  46.6383, 49.3637, 52.0891, 51.0323, 49.9755,
  52.3118, 54.6482, 68.7015, 82.7549, 87.1204,
  91.486, 92.4589, 93.4318, 90.057, 86.6823,
  95.7736, 104.865, 110.936, 117.008, 117.41,
  117.812, 116.336, 114.861, 115.392, 115.923,
  112.367, 108.811, 109.082, 109.354, 108.578,
  107.802, 106.296, 104.79, 106.239, 107.689,
  106.047, 104.405, 104.225, 104.046, 102.023,
  100.0, 98.1671, 96.3342, 96.0611, 95.788,
  92.2368, 88.6856, 89.3459, 90.0062, 89.8026,
  89.5991, 88.6489, 87.6987, 85.4936, 83.2886,
  83.4939, 83.6992, 81.863, 80.0268, 80.1207,
  80.2146, 81.2462, 82.2778, 80.281, 78.2842,
  74.0027, 69.7213, 70.6652, 71.6091, 72.979,
  74.349, 67.9765, 61.604, 65.7448, 69.8856,
  72.4863, 75.087, 69.3398, 63.5927, 55.0054,
  46.4182, 56.6118, 66.8054, 65.0941, 63.3828,
  63.8434, 64.304, 61.8779, 59.4519, 55.7054,
  51.959, 54.6998, 57.4406, 58.8765, 60.3125
]

/-- Raw D50 illuminant samples; the source normalizes each entry by 10503.2 via cie_d50_n. -/
def CIE_D50_RAW : List ℝ := [
  23.942000, 25.451000, 26.961000, 25.724000, 24.488000,
  27.179000, 29.871000, 39.589000, 49.308000, 52.910000,
  56.513000, 58.273000, 60.034000, 58.926000, 57.818000,
  66.321000, 74.825000, 81.036000, 87.247000, 88.930000,
  90.612000, 90.990000, 91.368000, 93.238000, 95.109000,
  93.536000, 91.963000, 93.843000, 95.724000, 96.169000,
  96.613000, 96.871000, 97.129000, 99.614000, 102.099000,
  101.427000, 100.755000, 101.536000, 102.317000, 101.159000,
  100.000000, 98.868000, 97.735000, 98.327000, 98.918000,
  96.208000, 93.499000, 95.593000, 97.688000, 98.478000,
  99.269000, 99.155000, 99.042000, 97.382000, 95.722000,
  97.290000, 98.857000, 97.262000, 95.667000, 96.929000,
  98.190000, 100.597000, 103.003000, 101.068000, 99.133000,
  93.257000, 87.381000, 89.492000, 91.604000, 92.246000,
  92.889000, 84.872000, 76.854000, 81.683000, 86.511000,
  89.546000, 92.580000, 85.405000, 78.230000, 67.961000,
  57.692000, 70.307000, 82.923000, 80.599000, 78.274000,
  0.0, 0.0, 0.0, 0.0, 0.0,
  0.0, 0.0, 0.0, 0.0, 0.0
]

/-- Raw D60 illuminant samples; the source normalizes each entry by 10536.3 via cie_d60_n. -/
def CIE_D60_RAW : List ℝ := [
  38.683115, 41.014457, 42.717548, 42.264182, 41.454941,
  41.763698, 46.605319, 59.226938, 72.278594, 78.231500,
  80.440600, 82.739580, 82.915027, 79.009168, 77.676264,
  85.163609, 95.681274, 103.267764, 107.954821, 109.777964,
  109.559187, 108.418402, 107.758141, 109.071548, 109.671404,
  106.734741, 103.707873, 103.981942, 105.232199, 105.235867,
  104.427667, 103.052881, 102.522934, 104.371416, 106.052671,
  104.948900, 103.315154, 103.416286, 103.538599, 102.099304,
  100.000000, 97.992725, 96.751421, 97.102402, 96.712823,
  93.174457, 89.921479, 90.351933, 91.999793, 92.384009,
  92.098710, 91.722859, 90.646003, 88.327552, 86.526483,
  87.034239, 87.579186, 85.884584, 83.976140, 83.743140,
  84.724074, 86.450818, 87.493491, 86.546330, 83.483070,
  78.268785, 74.172451, 74.275184, 76.620385, 79.423856,
  79.051849, 71.763360, 65.471371, 67.984085, 74.106079,
  78.556612, 79.527120, 75.584935, 67.307163, 55.275106,
  49.273538, 59.008629, 70.892412, 70.950115, 67.163996,
  67.445480, 68.171371, 66.466636, 62.989809, 58.067786,
  54.990892, 56.915942, 60.825601, 62.987850, 0.0
]

/-- Source matrix XYZ_TO_SRGB. -/
def XYZ_TO_SRGB : List (List ℝ) := [
  [3.240479, -1.537150, -0.498535],
  [-0.969256, 1.875991, 0.041556],
  [0.055648, -0.204043, 1.057311]
]

/-- Source matrix SRGB_TO_XYZ. -/
def SRGB_TO_XYZ : List (List ℝ) := [
  [0.412453, 0.357580, 0.180423],
  [0.212671, 0.715160, 0.072169],
  [0.019334, 0.119193, 0.950227]
]

/-- Source matrix XYZ_TO_XYZ. -/
def XYZ_TO_XYZ : List (List ℝ) := [
  [1.0, 0.0, 0.0],
  [0.0, 1.0, 0.0],
  [0.0, 0.0, 1.0]
]

/-- Source matrix XYZ_TO_ERGB. -/
def XYZ_TO_ERGB : List (List ℝ) := [
  [2.689989, -1.276020, -0.413844],
  [-1.022095, 1.978261, 0.043821],
  [0.061203, -0.224411, 1.162859]
]

/-- Source matrix ERGB_TO_XYZ. -/
def ERGB_TO_XYZ : List (List ℝ) := [
  [0.496859, 0.339094, 0.164047],
  [0.256193, 0.678188, 0.065619],
  [0.023290, 0.113031, 0.863978]
]

/-- Source matrix XYZ_TO_PRO_PHOTO_RGB. -/
def XYZ_TO_PRO_PHOTO_RGB : List (List ℝ) := [
  [1.3459433, -0.2556075, -0.0511118],
  [-0.5445989, 1.5081673, 0.0205351],
  [0.0000000, 0.0000000, 1.2118128]
]

/-- Source matrix PRO_PHOTO_RGB_TO_XYZ. -/
def PRO_PHOTO_RGB_TO_XYZ : List (List ℝ) := [
  [0.7976749, 0.1351917, 0.0313534],
  [0.2880402, 0.7118741, 0.0000857],
  [0.0000000, 0.0000000, 0.8252100]
]

/-- Source matrix XYZ_TO_ACES2065_1. -/
def XYZ_TO_ACES2065_1 : List (List ℝ) := [
  [1.0498110175, 0.0000000000, -0.0000974845],
  [-0.4959030231, 1.3733130458, 0.0982400361],
  [0.0000000000, 0.0000000000, 0.9912520182]
]

/-- Source matrix ACES2065_1_TO_XYZ. -/
def ACES2065_1_TO_XYZ : List (List ℝ) := [
  [0.9525523959, 0.0000000000, 0.0000936786],
  [0.3439664498, 0.7281660966, -0.0721325464],
  [0.0000000000, 0.0000000000, 1.0088251844]
]

/-- Source matrix XYZ_TO_REC2020. -/
def XYZ_TO_REC2020 : List (List ℝ) := [
  [1.7166511880, -0.3556707838, -0.2533662814],
  [-0.6666843518, 1.6164812366, 0.0157685458],
  [0.0176398574, -0.0427706133, 0.9421031212]
]

/-- Source matrix REC2020_TO_XYZ. -/
def REC2020_TO_XYZ : List (List ℝ) := [
  [0.6369580483, 0.1446169036, 0.1688809752],
  [0.2627002120, 0.6779980715, 0.0593017165],
  [0.0000000000, 0.0280726930, 1.0609850577]
]

/-- Source matrix XYZ_TO_DCIP3. -/
def XYZ_TO_DCIP3 : List (List ℝ) := [
  [2.493174800, -0.93126315, -0.402658820],
  [-0.829504250, 1.76269650, 0.023625137],
  [0.035853732, -0.07618918, 0.957095200]
]

/-- Source matrix DCIP3_TO_XYZ. -/
def DCIP3_TO_XYZ : List (List ℝ) := [
  [0.48663378, 0.26566276, 0.198173660],
  [0.22900413, 0.69172573, 0.079269454],
  [0.00000000, 0.04511256, 1.043714500]
]

/-- Normalization applied to each raw D65 sample (source const fn cie_d65_n). -/
def cie_d65_n (x : ℝ) : ℝ := x / 10566.864005283874576

/-- Normalization for the equal-energy illuminant (source const fn cie_e_n). -/
def cie_e_n (x : ℝ) : ℝ := x / 106.8

/-- Normalization for the D50 illuminant (source const fn cie_d50_n). -/
def cie_d50_n (x : ℝ) : ℝ := x / 10503.2

/-- Normalization for the D60 illuminant (source const fn cie_d60_n). -/
def cie_d60_n (x : ℝ) : ℝ := x / 10536.3

/-- CIE D65 illuminant: the source array stores cie_d65_n of each raw entry. -/
def CIE_D65 : List ℝ := CIE_D65_RAW.map cie_d65_n

/-- CIE equal-energy illuminant: the source array is 95 entries cie_e_n 1. -/
def CIE_E : List ℝ := List.replicate CIE_SAMPLES (cie_e_n 1)

/-- CIE D50 illuminant, normalized entries. -/
def CIE_D50 : List ℝ := CIE_D50_RAW.map cie_d50_n

/-- CIE D60 illuminant, normalized entries. -/
def CIE_D60 : List ℝ := CIE_D60_RAW.map cie_d60_n

/-- Working color spaces (source enum Gamut). -/
inductive Gamut
  | Srgb
  | ProPhotoRgb
  | Aces2065_1
  | Rec2020
  | Ergb
  | Xyz
  | DciP3

/-- Entry access of a 3x3 constant matrix stored as nested lists. -/
def matEntry (m : List (List ℝ)) (i j : ℕ) : ℝ := (m.getD i []).getD j 0

/-- Sample access of a 95-entry curve list. -/
def curve (l : List ℝ) (i : ℕ) : ℝ := l.getD i 0

/-- RGB-to-XYZ matrix selected by init_tables for each gamut. -/
def gamutRgbToXyz : Gamut → List (List ℝ)
  | .Srgb => SRGB_TO_XYZ
  | .Ergb => ERGB_TO_XYZ
  | .Xyz => XYZ_TO_XYZ
  | .ProPhotoRgb => PRO_PHOTO_RGB_TO_XYZ
  | .Aces2065_1 => ACES2065_1_TO_XYZ
  | .Rec2020 => REC2020_TO_XYZ
  | .DciP3 => DCIP3_TO_XYZ

/-- XYZ-to-RGB matrix selected by init_tables for each gamut. -/
def gamutXyzToRgb : Gamut → List (List ℝ)
  | .Srgb => XYZ_TO_SRGB
  | .Ergb => XYZ_TO_ERGB
  | .Xyz => XYZ_TO_XYZ
  | .ProPhotoRgb => XYZ_TO_PRO_PHOTO_RGB
  | .Aces2065_1 => XYZ_TO_ACES2065_1
  | .Rec2020 => XYZ_TO_REC2020
  | .DciP3 => XYZ_TO_DCIP3

/-- Standard illuminant selected by init_tables for each gamut. -/
def gamutIlluminant : Gamut → List ℝ
  | .Srgb => CIE_D65
  | .Rec2020 => CIE_D65
  | .DciP3 => CIE_D65
  | .ProPhotoRgb => CIE_D50
  | .Aces2065_1 => CIE_D60
  | .Ergb => CIE_E
  | .Xyz => CIE_E

/-- Fine sample spacing h = (830 - 360) / 282 of init_tables. -/
def fineH : ℝ := (CIE_LAMBDA_MAX - CIE_LAMBDA_MIN) / ((CIE_FINE_SAMPLES : ℝ) - 1)

/-- Fine sample wavelength lambda_i = 360 + i h of init_tables. -/
def fineLambda (i : ℕ) : ℝ := CIE_LAMBDA_MIN + (i : ℝ) * fineH

/-- Composite quadrature weight of init_tables at fine index i: 0.375 h at
the two endpoints, 0.75 h when (i - 1) % 3 = 2, else 1.125 h. -/
def fineWeight (i : ℕ) : ℝ :=
  if i = 0 ∨ i = CIE_FINE_SAMPLES - 1 then 0.375 * fineH
  else if (i - 1) % 3 = 2 then 0.75 * fineH
  else 1.125 * fineH

/-- Interpolated CIE curve value [x, y, z][j] at a wavelength. -/
def xyzCurve (j : ℕ) (lam : ℝ) : ℝ :=
  if j = 0 then cie_interp (curve CIE_X_RAW) lam
  else if j = 1 then cie_interp (curve CIE_Y_RAW) lam
  else cie_interp (curve CIE_Z_RAW) lam

/-- Interpolated illuminant of the gamut at a wavelength. -/
def illuminantInterp (g : Gamut) (lam : ℝ) : ℝ := cie_interp (curve (gamutIlluminant g)) lam

/-- Accumulation of rgb_tbl[k][i] by the inner j-loop of init_tables:
each pass adds xyz_to_rgb[k][j] * [x, y, z][j] * illuminant * weight. -/
def rgbTblEntry (g : Gamut) (k i : ℕ) : ℝ :=
  (List.range 3).foldl
    (fun acc j => acc + matEntry (gamutXyzToRgb g) k j * xyzCurve j (fineLambda i) *
      illuminantInterp g (fineLambda i) * fineWeight i) 0

/-- Whitepoint accumulation after the first n outer iterations of
init_tables: iteration i adds [x, y, z][j] * illuminant * weight with the
values of the outer index i (the shadowed inner loop index only selects the
channel j). -/
def whitepointAux (g : Gamut) (j : ℕ) : ℕ → ℝ
  | 0 => 0
  | n + 1 => whitepointAux g j n +
      xyzCurve j (fineLambda n) * illuminantInterp g (fineLambda n) * fineWeight n

/-- Translation of init_tables: wavelength axis, per-gamut matrices, the
integrated rgb_tbl and the whitepoint integral; entries outside the array
bounds of the source are 0. -/
def init_tables (g : Gamut) : RgbToSpecTables where
  lambda_tbl := fun i => if i < CIE_FINE_SAMPLES then fineLambda i else 0
  rgb_tbl := fun k i => if k < 3 ∧ i < CIE_FINE_SAMPLES then rgbTblEntry g k i else 0
  rgb_to_xyz := matEntry (gamutRgbToXyz g)
  xyz_to_rgb := matEntry (gamutXyzToRgb g)
  xyz_whitepoint := fun j => if j < 3 then whitepointAux g j CIE_FINE_SAMPLES else 0

theorem foldl_add_eq_sum (f : ℕ → ℝ) (n : ℕ) :
    (List.range n).foldl (fun acc j => acc + f j) 0 = ∑ j ∈ Finset.range n, f j := by
  induction n with
  | zero => simp
  | succ n ih =>
    rw [List.range_succ, List.foldl_append, Finset.sum_range_succ, ih]
    simp

theorem whitepointAux_eq_sum (g : Gamut) (j n : ℕ) :
    whitepointAux g j n = ∑ i ∈ Finset.range n,
      xyzCurve j (fineLambda i) * illuminantInterp g (fineLambda i) * fineWeight i := by
  induction n with
  | zero => rw [whitepointAux]; simp
  | succ n ih => rw [whitepointAux, ih, Finset.sum_range_succ]

/-- C6: with h = (830 - 360)/282, the init_tables quadrature weight at fine
index i is 0.375 h at i = 0 and i = 282, 0.75 h at interior indices with
(i-1) mod 3 = 2 (equivalently the interior multiples of 3) and 1.125 h at
every other interior index; with these weights, for every gamut,
rgb_tbl[k][i] is the sum over j of xyz_to_rgb[k][j] [x,y,z]_j(lambda_i)
illuminant(lambda_i) weight_i and xyz_whitepoint[j] is the sum over i of
[x,y,z]_j(lambda_i) illuminant(lambda_i) weight_i. -/
theorem init_tables_quadrature (g : Gamut) (i k j : ℕ)
    (hi : i < CIE_FINE_SAMPLES) (hk : k < 3) (hj : j < 3) :
    fineH = (830 - 360) / 282 ∧
      ((i = 0 ∨ i = 282) → fineWeight i = 0.375 * fineH) ∧
      (1 ≤ i → i ≤ 281 → ((i - 1) % 3 = 2 ↔ i % 3 = 0)) ∧
      (1 ≤ i → i ≤ 281 → (i - 1) % 3 = 2 → fineWeight i = 0.75 * fineH) ∧
      (1 ≤ i → i ≤ 281 → (i - 1) % 3 ≠ 2 → fineWeight i = 1.125 * fineH) ∧
      (init_tables g).rgb_tbl k i =
        ∑ j2 ∈ Finset.range 3,
          (init_tables g).xyz_to_rgb k j2 * xyzCurve j2 (fineLambda i) *
            illuminantInterp g (fineLambda i) * fineWeight i ∧
      (init_tables g).xyz_whitepoint j =
        ∑ i2 ∈ Finset.range CIE_FINE_SAMPLES,
          xyzCurve j (fineLambda i2) * illuminantInterp g (fineLambda i2) * fineWeight i2 := by
  have hfine : CIE_FINE_SAMPLES = 283 := by decide
  refine ⟨?_, ?_, ?_, ?_, ?_, ?_, ?_⟩
  · rw [fineH, hfine, CIE_LAMBDA_MAX, CIE_LAMBDA_MIN]
    norm_num
  · intro h
    have : i = 0 ∨ i = CIE_FINE_SAMPLES - 1 := by omega
    rw [fineWeight, if_pos this]
  · intro h1 h2
    omega
  · intro h1 h2 h3
    have hne : ¬(i = 0 ∨ i = CIE_FINE_SAMPLES - 1) := by omega
    rw [fineWeight, if_neg hne, if_pos h3]
  · intro h1 h2 h3
    have hne : ¬(i = 0 ∨ i = CIE_FINE_SAMPLES - 1) := by omega
    rw [fineWeight, if_neg hne, if_neg h3]
  · show (if k < 3 ∧ i < CIE_FINE_SAMPLES then rgbTblEntry g k i else 0) = _
    rw [if_pos ⟨hk, hi⟩, rgbTblEntry]
    exact foldl_add_eq_sum
      (fun j2 => matEntry (gamutXyzToRgb g) k j2 * xyzCurve j2 (fineLambda i) *
        illuminantInterp g (fineLambda i) * fineWeight i) 3
  · show (if j < 3 then whitepointAux g j CIE_FINE_SAMPLES else 0) = _
    rw [if_pos hj]
    exact whitepointAux_eq_sum g j CIE_FINE_SAMPLES

/-- Witness for init_tables_quadrature at the sRGB gamut with i = k = j = 0. -/
theorem init_tables_quadrature_witness :
    ((0 : ℕ) < CIE_FINE_SAMPLES ∧ (0 : ℕ) < 3 ∧ (0 : ℕ) < 3) ∧
      (fineH = (830 - 360) / 282 ∧
        (((0 : ℕ) = 0 ∨ (0 : ℕ) = 282) → fineWeight 0 = 0.375 * fineH) ∧
        (1 ≤ (0 : ℕ) → (0 : ℕ) ≤ 281 → (((0 : ℕ) - 1) % 3 = 2 ↔ (0 : ℕ) % 3 = 0)) ∧
        (1 ≤ (0 : ℕ) → (0 : ℕ) ≤ 281 → ((0 : ℕ) - 1) % 3 = 2 →
          fineWeight 0 = 0.75 * fineH) ∧
        (1 ≤ (0 : ℕ) → (0 : ℕ) ≤ 281 → ((0 : ℕ) - 1) % 3 ≠ 2 →
          fineWeight 0 = 1.125 * fineH) ∧
        (init_tables Gamut.Srgb).rgb_tbl 0 0 =
          ∑ j2 ∈ Finset.range 3,
            (init_tables Gamut.Srgb).xyz_to_rgb 0 j2 * xyzCurve j2 (fineLambda 0) *
              illuminantInterp Gamut.Srgb (fineLambda 0) * fineWeight 0 ∧
        (init_tables Gamut.Srgb).xyz_whitepoint 0 =
          ∑ i2 ∈ Finset.range CIE_FINE_SAMPLES,
            xyzCurve 0 (fineLambda i2) * illuminantInterp Gamut.Srgb (fineLambda i2) *
              fineWeight i2) :=
  ⟨⟨by decide, by decide, by decide⟩,
    init_tables_quadrature Gamut.Srgb 0 0 0 (by decide) (by decide) (by decide)⟩

/-- Translation of util::math::lerp from src/util/math.rs. -/
def lerp (t a b : ℝ) : ℝ := a * (1 - t) + b * t

/-- Coefficient table of RgbToSpectrumTable in src/spectrum/color.rs:
coefficients[max_idx][z][y][x][coef] and the z_node scale axis, modelled as
total functions on indices. -/
structure RgbToSpectrumTable where
  coefficients : ℕ → ℕ → ℕ → ℕ → ℕ → ℝ
  z_node : ℕ → ℝ

/-- Trilinear interpolation of output coefficient i in the general branch of
color_to_polynomial: the 8 corner reads at offsets 0/1 around (xi, yi, zi)
blended with weights dx, dy, dz. -/
def trilinear (tbl : RgbToSpectrumTable) (c : RgbColor) (i : ℕ) : ℝ :=
  let zi := ziIndex tbl.z_node c
  let dx := c.coordX - (c.xi : ℝ)
  let dy := c.coordY - (c.yi : ℝ)
  let dz := (c.coordZ - tbl.z_node zi) / (tbl.z_node (zi + 1) - tbl.z_node zi)
  let co := fun dxi dyi dzi => tbl.coefficients c.maxIdx (zi + dzi) (c.yi + dyi) (c.xi + dxi) i
  lerp dz
    (lerp dy (lerp dx (co 0 0 0) (co 1 0 0)) (lerp dx (co 0 1 0) (co 1 1 0)))
    (lerp dy (lerp dx (co 0 0 1) (co 1 0 1)) (lerp dx (co 0 1 1) (co 1 1 1)))

/-- Extended-real coefficient record for polynomials produced by the f32
runtime lookup: the achromatic closed form can produce signed infinities. -/
structure RgbSigmoidPolynomialE where
  c2 : EReal
  c1 : EReal
  c0 : EReal

/-- get_value on extended-real coefficients at a finite wavelength: the
Horner argument lambda * (lambda * c2 + c1) + c0 is computed in EReal and
fed to the sigmoid with its infinity special case. -/
def getValueE (p : RgbSigmoidPolynomialE) (lam : ℝ) : ℝ :=
  sigmoidE ((lam : EReal) * ((lam : EReal) * p.c2 + p.c1) + p.c0)

/-- IEEE-754 style division of finite a by finite b as computed in f32:
division of a nonzero numerator by (positive) zero yields the signed
infinity of the numerator.  The 0/0 corner (NaN in IEEE) is never reached
by the code modelled here and is mapped to 0. -/
def ieeeDiv (a b : ℝ) : EReal :=
  if b = 0 then (if a < 0 then ⊥ else if 0 < a then ⊤ else 0)
  else ((a / b : ℝ) : EReal)

/-- Achromatic branch of color_to_polynomial: coefficients
(0, 0, (r - 0.5) / sqrt (r * (1 - r))) with the division carried out in f32
(modelled by ieeeDiv, so r = 0 and r = 1 produce signed infinities). -/
def grayPolynomial (r : ℝ) : RgbSigmoidPolynomialE :=
  ⟨0, 0, ieeeDiv (r - 0.5) (Real.sqrt (r * (1 - r)))⟩

/-- Translation of RgbToSpectrumTable::color_to_polynomial: the achromatic
branch for r = g = b, else the trilinear table lookup (always finite,
coerced into the extended-real coefficient record). -/
def color_to_polynomial (tbl : RgbToSpectrumTable) (c : RgbColor) : RgbSigmoidPolynomialE :=
  if c.r = c.g ∧ c.g = c.b then grayPolynomial c.r
  else ⟨((trilinear tbl c 0 : ℝ) : EReal), ((trilinear tbl c 1 : ℝ) : EReal),
    ((trilinear tbl c 2 : ℝ) : EReal)⟩

theorem gray_zero : grayPolynomial 0 = ⟨0, 0, ⊥⟩ := by
  rw [grayPolynomial]
  have hs : Real.sqrt ((0 : ℝ) * (1 - 0)) = 0 := by
    norm_num
  rw [ieeeDiv, if_pos hs]
  norm_num

theorem gray_one : grayPolynomial 1 = ⟨0, 0, ⊤⟩ := by
  rw [grayPolynomial]
  have hs : Real.sqrt ((1 : ℝ) * (1 - 1)) = 0 := by
    norm_num
  rw [ieeeDiv, if_pos hs]
  norm_num

theorem getValueE_const_bot (lam : ℝ) : getValueE ⟨0, 0, ⊥⟩ lam = 0 := by
  rw [getValueE]
  have harg : ((lam : EReal) * ((lam : EReal) * (0 : EReal) + 0) + ⊥) = ⊥ := by
    rw [mul_zero, add_zero, mul_zero]
    exact zero_add ⊥
  rw [harg, sigmoidE, if_neg bot_ne_top, if_pos rfl]

theorem getValueE_const_top (lam : ℝ) : getValueE ⟨0, 0, ⊤⟩ lam = 1 := by
  rw [getValueE]
  have harg : ((lam : EReal) * ((lam : EReal) * (0 : EReal) + 0) + ⊤) = ⊤ := by
    rw [mul_zero, add_zero, mul_zero]
    exact zero_add ⊤
  rw [harg, sigmoidE, if_pos rfl]

/-- C10: at the achromatic extremes where the closed-form gray coefficient
divides by zero, the pipeline is total and exact: color_to_polynomial at
rgb = (0,0,0) takes the gray branch and yields coefficients
(c2, c1, c0) = (0, 0, -infinity) with get_value lambda = 0 at every finite
wavelength, and at rgb = (1,1,1) yields (0, 0, +infinity) with
get_value lambda = 1, because the sigmoid maps an infinite argument to 1
when positive and to 0 when negative. -/
theorem color_to_polynomial_achromatic_extremes (tbl : RgbToSpectrumTable) :
    color_to_polynomial tbl ⟨0, 0, 0⟩ = ⟨0, 0, ⊥⟩ ∧
      (∀ lam : ℝ, getValueE (color_to_polynomial tbl ⟨0, 0, 0⟩) lam = 0) ∧
      color_to_polynomial tbl ⟨1, 1, 1⟩ = ⟨0, 0, ⊤⟩ ∧
      (∀ lam : ℝ, getValueE (color_to_polynomial tbl ⟨1, 1, 1⟩) lam = 1) ∧
      sigmoidE ⊤ = 1 ∧ sigmoidE ⊥ = 0 := by
  have h0 : color_to_polynomial tbl ⟨0, 0, 0⟩ = ⟨0, 0, ⊥⟩ := by
    rw [color_to_polynomial, if_pos ⟨rfl, rfl⟩]
    exact gray_zero
  have h1 : color_to_polynomial tbl ⟨1, 1, 1⟩ = ⟨0, 0, ⊤⟩ := by
    rw [color_to_polynomial, if_pos ⟨rfl, rfl⟩]
    exact gray_one
  refine ⟨h0, fun lam => ?_, h1, fun lam => ?_, ?_, ?_⟩
  · rw [h0]
    exact getValueE_const_bot lam
  · rw [h1]
    exact getValueE_const_top lam
  · rw [sigmoidE, if_pos rfl]
  · rw [sigmoidE, if_neg bot_ne_top, if_pos rfl]

end Optics

end
